import Mathlib

/-!
Shallow embedding of the ledger accrual engine of the crypto-investment
platform: the daily profit job (`DailyProfitJob` in
`backend/src/jobs/dailyProfitJob.js`).

Modelling conventions:
* Money amounts and rates are rationals (`ℚ`); the source manipulates
  JavaScript numbers obtained through `parseFloat`, and all the
  arithmetic the claims exercise (`a * b * d / 100`, additions,
  comparisons, `Math.max`) is exact on the decimal inputs involved.
* Timestamps are rationals measured in days, so the source's
  `Math.floor((now - startDate) / (1000*60*60*24))` becomes
  `⌊now - start_date⌋`.
* The per-investment database state visible to the job is a record
  holding the owner's balance, the stored investment row and the list
  of transaction records written for that investment.  Prisma's
  `increment` updates become additions on that record; `create` on the
  transaction table becomes a list append.
* Email dispatch (`sendProfitNotificationEmail`,
  `sendInvestmentCompletionEmail`) is external best-effort I/O that
  touches no ledger state; the model records `emailSent := false`, the
  value the source also produces whenever the gateway fails.
-/

namespace DailyProfitJob

/-- Lifecycle status of an investment row (`status` column). -/
inductive InvStatus
| ACTIVE
| COMPLETED
deriving DecidableEq, Repr

/-- Category of a transaction record (`type` column). -/
inductive TxType
| PROFIT
| INVESTMENT
deriving DecidableEq, Repr

/-- An investment snapshot as the job sees it: the `activeInvestment`
row joined with the included `plan` fields (`duration_days`). -/
structure Investment where
amount_usd : ℚ
daily_percent : ℚ
total_earned : ℚ
start_date : ℚ
end_date : ℚ
status : InvStatus
duration_days : ℕ
deriving DecidableEq, Repr

/-- One row of the append-only transaction table, restricted to the
fields the claims are about. -/
structure TxRecord where
type : TxType
amount_usd : ℚ
deriving DecidableEq, Repr

/-- The database state relevant to one investment: the owning user's
balance, the stored investment row, and the transaction records written
for this investment. -/
structure LedgerState where
balance_usd : ℚ
row : Investment
ledger : List TxRecord
deriving DecidableEq, Repr

/-- Outcome message of processing one investment, mirroring the
`message` strings returned by `processInvestment` and
`completeInvestment`. -/
inductive ProcMessage
| investmentTooRecent
| noNewProfit
| profitDistributed
| investmentCompleted
deriving DecidableEq, Repr

/-- The object `processInvestment` / `completeInvestment` returns on
the non-throwing paths. -/
structure ProcResult where
success : Bool
completed : Bool
profitAmount : ℚ
emailSent : Bool
message : ProcMessage
deriving DecidableEq, Repr

/-- `completeInvestment(investment, prisma)`: computes
`totalExpectedProfit = amount_usd * daily_percent * duration_days / 100`,
credits `remainingProfit = max 0 (totalExpectedProfit - total_earned)`
to the balance (writing a PROFIT record) when positive, then sets the
stored row to COMPLETED with `total_earned` assigned (not incremented)
to `totalExpectedProfit`, and writes a zero-amount INVESTMENT record. -/
def completeInvestment (investment : Investment) (st : LedgerState) :
    LedgerState × ProcResult :=
  let totalExpectedProfit :=
    investment.amount_usd * investment.daily_percent *
      (investment.duration_days : ℚ) / 100
  let alreadyEarned := investment.total_earned
  let remainingProfit := max 0 (totalExpectedProfit - alreadyEarned)
  let st1 :=
    if remainingProfit > 0 then
      { st with
        balance_usd := st.balance_usd + remainingProfit,
        ledger := st.ledger ++ [⟨TxType.PROFIT, remainingProfit⟩] }
    else st
  let st2 :=
    { st1 with
      row := { st1.row with
               status := InvStatus.COMPLETED,
               total_earned := totalExpectedProfit },
      ledger := st1.ledger ++ [⟨TxType.INVESTMENT, 0⟩] }
  (st2, ⟨true, true, remainingProfit, false, ProcMessage.investmentCompleted⟩)

/-- `processInvestment(investment, prisma)` at time `now`: dispatches to
`completeInvestment` when `now > end_date`; otherwise computes
`daysElapsed = ⌊now - start_date⌋`, skips when `daysElapsed < 1` or when
`newProfit = amount_usd * daily_percent * daysElapsed / 100 -
total_earned ≤ 0`, and otherwise increments the balance and the stored
row's `total_earned` by `newProfit` and appends a PROFIT record — all of
it computed from the `investment` argument (the coordinator's snapshot),
never from the stored row. -/
def processInvestment (now : ℚ) (investment : Investment)
    (st : LedgerState) : LedgerState × ProcResult :=
  if now > investment.end_date then
    completeInvestment investment st
  else
    let daysElapsed : ℤ := ⌊now - investment.start_date⌋
    if daysElapsed < 1 then
      (st, ⟨true, false, 0, false, ProcMessage.investmentTooRecent⟩)
    else
      let expectedTotalProfit :=
        investment.amount_usd * investment.daily_percent *
          (daysElapsed : ℚ) / 100
      let alreadyEarned := investment.total_earned
      let newProfit := expectedTotalProfit - alreadyEarned
      if newProfit ≤ 0 then
        (st, ⟨true, false, 0, false, ProcMessage.noNewProfit⟩)
      else
        ({ st with
           balance_usd := st.balance_usd + newProfit,
           row := { st.row with
                    total_earned := st.row.total_earned + newProfit },
           ledger := st.ledger ++ [⟨TxType.PROFIT, newProfit⟩] },
         ⟨true, false, newProfit, false, ProcMessage.profitDistributed⟩)

/-- The contractual total of an investment:
`amount_usd * daily_percent * duration_days / 100`. -/
def contractualTotal (inv : Investment) : ℚ :=
  inv.amount_usd * inv.daily_percent * (inv.duration_days : ℚ) / 100

/-- The contractual amount owed to date at time `now`:
`amount_usd * daily_percent * ⌊now - start_date⌋ / 100`. -/
def contractualToDate (now : ℚ) (inv : Investment) : ℚ :=
  inv.amount_usd * inv.daily_percent * ((⌊now - inv.start_date⌋ : ℤ) : ℚ) / 100

/-- Sum of the amounts of a list of transaction records. -/
def ledgerSum (l : List TxRecord) : ℚ :=
  (l.map TxRecord.amount_usd).sum

/-- A single application of the job's per-investment machinery to the
stored state itself: either `processInvestment` at some time `now`, or
a direct `completeInvestment`, both fed the stored row as the snapshot
(the situation of consecutive sequential runs, where each run's
`findMany` snapshot is the current row). -/
inductive JobStep
| process (now : ℚ)
| complete
deriving DecidableEq, Repr

/-- Apply one `JobStep` to a ledger state. -/
def applyStep (s : JobStep) (st : LedgerState) : LedgerState :=
  match s with
  | JobStep.process now => (processInvestment now st.row st).1
  | JobStep.complete => (completeInvestment st.row st).1

/-- Apply a sequence of job steps, left to right. -/
def applySteps (steps : List JobStep) (st : LedgerState) : LedgerState :=
  steps.foldl (fun s stp => applyStep stp s) st

/-- The stored row with its `status` column replaced — stands for an
interleaved update of the row by another path, which the job's cached
snapshot does not see. -/
def withStatus (st : LedgerState) (s : InvStatus) : LedgerState :=
  { st with row := { st.row with status := s } }

/-- Data-model well-formedness of an investment row: `end_date` is
`start_date` plus the plan duration, and principal and daily rate are
non-negative. -/
def WellFormedRow (inv : Investment) : Prop :=
  inv.end_date = inv.start_date + (inv.duration_days : ℚ) ∧
  0 ≤ inv.amount_usd ∧ 0 ≤ inv.daily_percent

/-- The joint ledger invariant: the transaction records written for the
investment sum to `total_earned`, and `total_earned` is within the
contractual total. -/
def LedgerInv (st : LedgerState) : Prop :=
  ledgerSum st.ledger = st.row.total_earned ∧
  st.row.total_earned ≤ contractualTotal st.row

/-!
The run coordinator `execute()`.  Its interaction with one investment
is fully described by `processInvestment`'s returned object (or a
thrown error, which the loop body catches); the coordinator-level model
therefore takes the list of per-investment outcomes (paired with
investment ids) and the outcome of the initial `findMany` listing.
-/

/-- What one loop iteration of `execute()` observes for one
investment: the returned result object, or a thrown error (caught by
the loop's `catch`). -/
inductive InvOutcome
| returned (r : ProcResult)
| threw
deriving DecidableEq, Repr

/-- Whether an outcome is counted as processed (`result.success`). -/
def isSuccessOutcome : InvOutcome → Bool
  | InvOutcome.returned r => r.success
  | InvOutcome.threw => false

/-- The `results` accumulator object of `execute()`. -/
structure RunResults where
totalInvestments : ℕ
processedInvestments : ℕ
completedInvestments : ℕ
totalProfitDistributed : ℚ
errors : List ℕ
emailsSent : ℕ
deriving DecidableEq, Repr

/-- The accumulator as initialised at the top of `execute()`. -/
def initialResults : RunResults := ⟨0, 0, 0, 0, [], 0⟩

/-- One iteration of `execute()`'s loop body: on a successful result,
bump `processedInvestments` (and the profit / completion / email
tallies); on a failed result or a thrown error, push the investment id
onto `errors`. -/
def recordOutcome (acc : RunResults) (item : ℕ × InvOutcome) : RunResults :=
  match item.2 with
  | InvOutcome.returned r =>
    if r.success then
      { acc with
        processedInvestments := acc.processedInvestments + 1,
        totalProfitDistributed := acc.totalProfitDistributed + r.profitAmount,
        completedInvestments :=
          acc.completedInvestments + (if r.completed then 1 else 0),
        emailsSent := acc.emailsSent + (if r.emailSent then 1 else 0) }
    else { acc with errors := acc.errors ++ [item.1] }
  | InvOutcome.threw => { acc with errors := acc.errors ++ [item.1] }

/-- The `results` object produced by a run that listed `outs`:
`totalInvestments` is set to the listing's length before the loop, then
every outcome is recorded. -/
def runResultsOf (outs : List (ℕ × InvOutcome)) : RunResults :=
  outs.foldl recordOutcome
    { initialResults with totalInvestments := outs.length }

/-- The `message` of the object `execute()` returns. -/
inductive ExecMessage
| jobAlreadyRunning
| calculationCompleted
| calculationFailed
deriving DecidableEq, Repr

/-- The object `execute()` returns.  `topError` and `results` are
`Option`s because the source object carries an `error` field only on
the catch path and a `results` field only once a run actually
started. -/
structure ExecResult where
success : Bool
message : ExecMessage
topError : Option ℕ
results : Option RunResults
deriving DecidableEq, Repr

/-- `execute()`: first component is the returned object, second is the
value of `this.isRunning` afterwards.  If a run is already in progress
it returns `{success: false, message: 'Job already running'}` at once
(leaving the flag, which the in-progress run owns, set).  Otherwise the
flag is taken; a failed `findMany` listing is caught and reported with
the top-level error and the still-initial `results`; a successful
listing is folded through the loop.  The `finally` clause clears the
flag on both of those paths. -/
def executeModel (isRunning : Bool)
    (listing : Except ℕ (List (ℕ × InvOutcome))) : ExecResult × Bool :=
  if isRunning then
    (⟨false, ExecMessage.jobAlreadyRunning, none, none⟩, isRunning)
  else
    match listing with
    | Except.error e =>
      (⟨false, ExecMessage.calculationFailed, some e, some initialResults⟩,
       false)
    | Except.ok outs =>
      (⟨true, ExecMessage.calculationCompleted, none,
        some (runResultsOf outs)⟩, false)

/-!  Concrete inputs used by the per-claim counterexamples and
witnesses.  Timestamps are in days with the investment start at 0; the
rate `3/2` is the decimal `1.50` (%/day). -/

/-- Stale snapshot for the fresh-read claim: the row as the coordinator
listed it (ACTIVE, nothing earned). -/
def c1Snap : Investment := ⟨100, 3/2, 0, 0, 30, InvStatus.ACTIVE, 30⟩

/-- Stored state for the fresh-read claim: another path has meanwhile
completed the row (status COMPLETED, `total_earned` at the contractual
total 45). -/
def c1St : LedgerState := ⟨0, ⟨100, 3/2, 45, 0, 30, InvStatus.COMPLETED, 30⟩, []⟩

/-- State for the ceiling-invariant witness: 5 days into a 30-day
investment of 100 at 1.5%/day, nothing earned yet. -/
def c2St : LedgerState := ⟨0, ⟨100, 3/2, 0, 0, 30, InvStatus.ACTIVE, 30⟩, []⟩

/-- State for the idempotence witness: same terms as the spec's
scenario 1. -/
def c3St : LedgerState := ⟨0, ⟨100, 3/2, 0, 0, 30, InvStatus.ACTIVE, 30⟩, []⟩

/-- State for the conservation witness: a fresh investment with an
empty transaction list. -/
def c4St : LedgerState := ⟨0, ⟨100, 3/2, 0, 0, 30, InvStatus.ACTIVE, 30⟩, []⟩

/-- Step sequence for the conservation witness: two accrual runs on day
5, then a run after the end date. -/
def c4Steps : List JobStep :=
  [JobStep.process 5, JobStep.process 5, JobStep.complete,
   JobStep.process 31]

/-- State for the completion claim: the spec's scenario 3 terms —
`total_earned = 40`, contractual total `100 * 1.5 * 30 / 100 = 45`. -/
def c5St : LedgerState := ⟨0, ⟨100, 3/2, 40, 0, 30, InvStatus.ACTIVE, 30⟩, []⟩

/-- State for the negative-owed claim: `total_earned` corrupted to 50,
above the contractual total 45. -/
def c6St : LedgerState := ⟨0, ⟨100, 3/2, 50, 0, 30, InvStatus.ACTIVE, 30⟩, []⟩

/-- Snapshot and state for the spec's scenario 1 (the row itself, with
balance 0 and no transaction records). -/
def c9St : LedgerState := ⟨0, ⟨100, 3/2, 0, 0, 30, InvStatus.ACTIVE, 30⟩, []⟩

end DailyProfitJob

namespace DailyProfitJob

/-- Summing transaction amounts distributes over list append. -/
theorem ledgerSum_append (l₁ l₂ : List TxRecord) :
    ledgerSum (l₁ ++ l₂) = ledgerSum l₁ + ledgerSum l₂ := by
  simp [ledgerSum]

/-- After `completeInvestment`, the stored row is the old row with
status COMPLETED and `total_earned` overwritten by the snapshot's
contractual total. -/
theorem completeInvestment_row (inv : Investment) (st : LedgerState) :
    (completeInvestment inv st).1.row =
      { st.row with status := InvStatus.COMPLETED,
                    total_earned := contractualTotal inv } := by
  simp only [completeInvestment, contractualTotal]
  split <;> rfl

/-- The result object of `completeInvestment` reports success, the
completed flag and a profit of `max 0 (total - total_earned)`. -/
theorem completeInvestment_result (inv : Investment) (st : LedgerState) :
    (completeInvestment inv st).2 =
      ⟨true, true, max 0 (contractualTotal inv - inv.total_earned), false,
       ProcMessage.investmentCompleted⟩ := by
  simp only [completeInvestment, contractualTotal]

/-- `completeInvestment` increments the balance by exactly
`max 0 (total - total_earned)` (zero when nothing remains). -/
theorem completeInvestment_balance (inv : Investment) (st : LedgerState) :
    (completeInvestment inv st).1.balance_usd =
      st.balance_usd + max 0 (contractualTotal inv - inv.total_earned) := by
  simp only [completeInvestment, contractualTotal]
  split
  case isTrue h => rfl
  case isFalse h =>
    push_neg at h
    have h0 : (0 : ℚ) ≤ max 0 (inv.amount_usd * inv.daily_percent *
        (inv.duration_days : ℚ) / 100 - inv.total_earned) := le_max_left 0 _
    have : max 0 (inv.amount_usd * inv.daily_percent *
        (inv.duration_days : ℚ) / 100 - inv.total_earned) = 0 :=
      le_antisymm h h0
    simp [this]

/-- `completeInvestment` grows the transaction sum by exactly the
clamped remaining profit. -/
theorem completeInvestment_ledgerSum (inv : Investment) (st : LedgerState) :
    ledgerSum (completeInvestment inv st).1.ledger =
      ledgerSum st.ledger +
        max 0 (contractualTotal inv - inv.total_earned) := by
  simp only [completeInvestment, contractualTotal]
  split
  case isTrue h => simp [ledgerSum]
  case isFalse h =>
    push_neg at h
    have h0 : (0 : ℚ) ≤ max 0 (inv.amount_usd * inv.daily_percent *
        (inv.duration_days : ℚ) / 100 - inv.total_earned) := le_max_left 0 _
    have : max 0 (inv.amount_usd * inv.daily_percent *
        (inv.duration_days : ℚ) / 100 - inv.total_earned) = 0 :=
      le_antisymm h h0
    simp [ledgerSum, this]

/-- The transaction records `completeInvestment` appends: a PROFIT
record for the clamped remaining profit when it is positive, then the
zero-amount INVESTMENT completion record. -/
theorem completeInvestment_ledger (inv : Investment) (st : LedgerState) :
    (completeInvestment inv st).1.ledger =
      if 0 < max 0 (contractualTotal inv - inv.total_earned) then
        st.ledger ++
          [⟨TxType.PROFIT, max 0 (contractualTotal inv - inv.total_earned)⟩,
           ⟨TxType.INVESTMENT, 0⟩]
      else st.ledger ++ [⟨TxType.INVESTMENT, 0⟩] := by
  simp only [completeInvestment, contractualTotal]
  split_ifs <;> simp_all

/-- Dispatch: strictly past the snapshot's end date,
`processInvestment` is `completeInvestment`. -/
theorem processInvestment_ended (now : ℚ) (inv : Investment)
    (st : LedgerState) (h : now > inv.end_date) :
    processInvestment now inv st = completeInvestment inv st := by
  simp [processInvestment, h]

/-- Before one full day has elapsed, `processInvestment` changes
nothing and reports a successful skip. -/
theorem processInvestment_tooRecent (now : ℚ) (inv : Investment)
    (st : LedgerState) (h1 : ¬ now > inv.end_date)
    (h2 : ⌊now - inv.start_date⌋ < 1) :
    processInvestment now inv st =
      (st, ⟨true, false, 0, false, ProcMessage.investmentTooRecent⟩) := by
  simp [processInvestment, h1, h2]

/-- With nothing owed (`newProfit ≤ 0`), `processInvestment` changes
nothing and reports a successful skip. -/
theorem processInvestment_noNew (now : ℚ) (inv : Investment)
    (st : LedgerState) (h1 : ¬ now > inv.end_date)
    (h2 : ¬ ⌊now - inv.start_date⌋ < 1)
    (h3 : contractualToDate now inv - inv.total_earned ≤ 0) :
    processInvestment now inv st =
      (st, ⟨true, false, 0, false, ProcMessage.noNewProfit⟩) := by
  simp only [processInvestment, contractualToDate] at h3 ⊢
  rw [if_neg h1, if_neg h2, if_pos h3]

/-- The crediting branch of `processInvestment`: the balance and the
stored `total_earned` are incremented by the owed amount computed from
the snapshot, and one PROFIT record is appended. -/
theorem processInvestment_credit (now : ℚ) (inv : Investment)
    (st : LedgerState) (h1 : ¬ now > inv.end_date)
    (h2 : ¬ ⌊now - inv.start_date⌋ < 1)
    (h3 : ¬ contractualToDate now inv - inv.total_earned ≤ 0) :
    processInvestment now inv st =
      ({ st with
         balance_usd :=
           st.balance_usd + (contractualToDate now inv - inv.total_earned),
         row := { st.row with
                  total_earned := st.row.total_earned +
                    (contractualToDate now inv - inv.total_earned) },
         ledger := st.ledger ++
           [⟨TxType.PROFIT, contractualToDate now inv - inv.total_earned⟩] },
       ⟨true, false, contractualToDate now inv - inv.total_earned, false,
        ProcMessage.profitDistributed⟩) := by
  simp only [processInvestment, contractualToDate] at h3 ⊢
  rw [if_neg h1, if_neg h2, if_neg h3]

/-- On a well-formed row, the amount owed to date never exceeds the
contractual total while `now` is at or before the end date. -/
theorem contractualToDate_le_total (now : ℚ) (inv : Investment)
    (hw : WellFormedRow inv) (h : ¬ now > inv.end_date) :
    contractualToDate now inv ≤ contractualTotal inv := by
  obtain ⟨hend, hamt, hpct⟩ := hw
  unfold contractualToDate contractualTotal
  push_neg at h
  have h1 : ((⌊now - inv.start_date⌋ : ℤ) : ℚ) ≤ now - inv.start_date :=
    Int.floor_le _
  have hd : ((⌊now - inv.start_date⌋ : ℤ) : ℚ) ≤ (inv.duration_days : ℚ) := by
    rw [hend] at h
    linarith
  have hnn : 0 ≤ inv.amount_usd * inv.daily_percent := mul_nonneg hamt hpct
  have h2 := mul_le_mul_of_nonneg_left hd hnn
  linarith

end DailyProfitJob

namespace DailyProfitJob

/-- Completing the stored row itself leaves `total_earned` exactly at
the contractual total, hence within the ceiling. -/
theorem completeInvestment_self_ceiling (st : LedgerState) :
    (completeInvestment st.row st).1.row.total_earned ≤
      contractualTotal (completeInvestment st.row st).1.row := by
  rw [completeInvestment_row]
  exact le_refl _

/-- Processing the stored row itself preserves the ceiling invariant. -/
theorem processInvestment_self_ceiling (now : ℚ) (st : LedgerState)
    (hw : WellFormedRow st.row)
    (h_ceil : st.row.total_earned ≤ contractualTotal st.row) :
    (processInvestment now st.row st).1.row.total_earned ≤
      contractualTotal (processInvestment now st.row st).1.row := by
  by_cases h1 : now > st.row.end_date
  · rw [processInvestment_ended now st.row st h1]
    exact completeInvestment_self_ceiling st
  · by_cases h2 : ⌊now - st.row.start_date⌋ < 1
    · rw [processInvestment_tooRecent now st.row st h1 h2]
      exact h_ceil
    · by_cases h3 : contractualToDate now st.row - st.row.total_earned ≤ 0
      · rw [processInvestment_noNew now st.row st h1 h2 h3]
        exact h_ceil
      · rw [processInvestment_credit now st.row st h1 h2 h3]
        have hle := contractualToDate_le_total now st.row hw h1
        show st.row.total_earned +
            (contractualToDate now st.row - st.row.total_earned) ≤
          contractualTotal st.row
        linarith

/-- Completing the stored row itself preserves conservation: the final
PROFIT record is exactly the gap between the contractual total and the
earnings already recorded. -/
theorem completeInvestment_self_conservation (st : LedgerState)
    (h_ceil : st.row.total_earned ≤ contractualTotal st.row)
    (h_cons : ledgerSum st.ledger = st.row.total_earned) :
    ledgerSum (completeInvestment st.row st).1.ledger =
      (completeInvestment st.row st).1.row.total_earned := by
  rw [completeInvestment_ledgerSum, completeInvestment_row, h_cons]
  have hmax : max 0 (contractualTotal st.row - st.row.total_earned) =
      contractualTotal st.row - st.row.total_earned :=
    max_eq_right (by linarith)
  rw [hmax]
  show st.row.total_earned + (contractualTotal st.row - st.row.total_earned) =
    contractualTotal st.row
  ring

/-- Processing the stored row itself preserves conservation: the PROFIT
record written equals the increment applied to `total_earned`. -/
theorem processInvestment_self_conservation (now : ℚ) (st : LedgerState)
    (h_ceil : st.row.total_earned ≤ contractualTotal st.row)
    (h_cons : ledgerSum st.ledger = st.row.total_earned) :
    ledgerSum (processInvestment now st.row st).1.ledger =
      (processInvestment now st.row st).1.row.total_earned := by
  by_cases h1 : now > st.row.end_date
  · rw [processInvestment_ended now st.row st h1]
    exact completeInvestment_self_conservation st h_ceil h_cons
  · by_cases h2 : ⌊now - st.row.start_date⌋ < 1
    · rw [processInvestment_tooRecent now st.row st h1 h2]
      exact h_cons
    · by_cases h3 : contractualToDate now st.row - st.row.total_earned ≤ 0
      · rw [processInvestment_noNew now st.row st h1 h2 h3]
        exact h_cons
      · rw [processInvestment_credit now st.row st h1 h2 h3]
        show ledgerSum (st.ledger ++
            [⟨TxType.PROFIT,
              contractualToDate now st.row - st.row.total_earned⟩]) =
          st.row.total_earned +
            (contractualToDate now st.row - st.row.total_earned)
        rw [ledgerSum_append, h_cons]
        simp [ledgerSum]

/-- Completion does not touch the row's terms, so well-formedness is
preserved. -/
theorem completeInvestment_self_wf (st : LedgerState)
    (hw : WellFormedRow st.row) :
    WellFormedRow (completeInvestment st.row st).1.row := by
  rw [completeInvestment_row]
  exact hw

/-- Processing does not touch the row's terms, so well-formedness is
preserved. -/
theorem processInvestment_self_wf (now : ℚ) (st : LedgerState)
    (hw : WellFormedRow st.row) :
    WellFormedRow (processInvestment now st.row st).1.row := by
  by_cases h1 : now > st.row.end_date
  · rw [processInvestment_ended now st.row st h1]
    exact completeInvestment_self_wf st hw
  · by_cases h2 : ⌊now - st.row.start_date⌋ < 1
    · rw [processInvestment_tooRecent now st.row st h1 h2]
      exact hw
    · by_cases h3 : contractualToDate now st.row - st.row.total_earned ≤ 0
      · rw [processInvestment_noNew now st.row st h1 h2 h3]
        exact hw
      · rw [processInvestment_credit now st.row st h1 h2 h3]
        exact hw

/-- One job step preserves row well-formedness and the joint ledger
invariant. -/
theorem applyStep_preserves (s : JobStep) (st : LedgerState)
    (hw : WellFormedRow st.row) (hinv : LedgerInv st) :
    WellFormedRow (applyStep s st).row ∧ LedgerInv (applyStep s st) := by
  obtain ⟨h_cons, h_ceil⟩ := hinv
  cases s with
  | process now =>
    exact ⟨processInvestment_self_wf now st hw,
      processInvestment_self_conservation now st h_ceil h_cons,
      processInvestment_self_ceiling now st hw h_ceil⟩
  | complete =>
    refine ⟨completeInvestment_self_wf st hw,
      completeInvestment_self_conservation st h_ceil h_cons, ?_⟩
    exact completeInvestment_self_ceiling st

/-- Any sequence of job steps preserves row well-formedness and the
joint ledger invariant. -/
theorem applySteps_preserves (steps : List JobStep) (st : LedgerState)
    (hw : WellFormedRow st.row) (hinv : LedgerInv st) :
    WellFormedRow (applySteps steps st).row ∧
      LedgerInv (applySteps steps st) := by
  induction steps generalizing st with
  | nil => exact ⟨hw, hinv⟩
  | cons s rest ih =>
    have h1 := applyStep_preserves s st hw hinv
    exact ih (applyStep s st) h1.1 h1.2

/-- A successful outcome bumps `processedInvestments` and leaves
`errors` and `totalInvestments` alone. -/
theorem recordOutcome_success (acc : RunResults) (i : ℕ) (o : InvOutcome)
    (h : isSuccessOutcome o = true) :
    (recordOutcome acc (i, o)).processedInvestments =
        acc.processedInvestments + 1 ∧
    (recordOutcome acc (i, o)).errors = acc.errors ∧
    (recordOutcome acc (i, o)).totalInvestments = acc.totalInvestments := by
  cases o with
  | returned r =>
    simp only [isSuccessOutcome] at h
    simp [recordOutcome, h]
  | threw => simp [isSuccessOutcome] at h

/-- A failed or thrown outcome pushes the investment id onto `errors`
and leaves `processedInvestments` and `totalInvestments` alone. -/
theorem recordOutcome_failure (acc : RunResults) (i : ℕ) (o : InvOutcome)
    (h : isSuccessOutcome o = false) :
    (recordOutcome acc (i, o)).processedInvestments =
        acc.processedInvestments ∧
    (recordOutcome acc (i, o)).errors = acc.errors ++ [i] ∧
    (recordOutcome acc (i, o)).totalInvestments = acc.totalInvestments := by
  cases o with
  | returned r =>
    simp only [isSuccessOutcome] at h
    simp [recordOutcome, h]
  | threw => simp [recordOutcome]

/-- Folding the loop body over the outcomes: `totalInvestments` is
untouched, every outcome lands in exactly one of
`processedInvestments`/`errors`, and `processedInvestments` counts the
successful outcomes. -/
theorem foldl_recordOutcome_counts (outs : List (ℕ × InvOutcome))
    (acc : RunResults) :
    (outs.foldl recordOutcome acc).totalInvestments = acc.totalInvestments ∧
    (outs.foldl recordOutcome acc).processedInvestments +
        (outs.foldl recordOutcome acc).errors.length =
      acc.processedInvestments + acc.errors.length + outs.length ∧
    (outs.foldl recordOutcome acc).processedInvestments =
      acc.processedInvestments +
        (outs.filter (fun item => isSuccessOutcome item.2)).length := by
  induction outs generalizing acc with
  | nil => simp
  | cons item rest ih =>
    obtain ⟨i, o⟩ := item
    rw [List.foldl_cons, List.filter_cons]
    have hrec := ih (recordOutcome acc (i, o))
    cases hs : isSuccessOutcome o with
    | true =>
      obtain ⟨hp, he, ht⟩ := recordOutcome_success acc i o hs
      rw [hp, he, ht] at hrec
      simp only [hs, if_pos, List.length_cons]
      refine ⟨hrec.1, ?_, ?_⟩
      · rw [hrec.2.1]
        omega
      · rw [hrec.2.2]
        omega
    | false =>
      obtain ⟨hp, he, ht⟩ := recordOutcome_failure acc i o hs
      rw [hp, he, ht] at hrec
      simp only [hs, List.length_cons, Bool.false_eq_true, if_false]
      refine ⟨hrec.1, ?_, ?_⟩
      · rw [hrec.2.1]
        simp only [List.length_append, List.length_cons, List.length_nil]
        omega
      · rw [hrec.2.2]

end DailyProfitJob

namespace DailyProfitJob

/-- Claim C1, counterexample: the stored row is already COMPLETED (with
its full contractual total recorded), yet `processInvestment` applied
to the coordinator's stale ACTIVE snapshot still credits the balance
and writes a ledger entry instead of returning a skipped result — there
is no fresh re-read and no already-completed guard in the code. -/
theorem claim1_counterexample :
    c1St.row.status = InvStatus.COMPLETED ∧
    (processInvestment 5 c1Snap c1St).2.message =
        ProcMessage.profitDistributed ∧
    (processInvestment 5 c1Snap c1St).1.balance_usd ≠ c1St.balance_usd ∧
    (processInvestment 5 c1Snap c1St).1.ledger ≠ c1St.ledger := by
  refine ⟨rfl, ?_, ?_, ?_⟩ <;>
    · simp [processInvestment, completeInvestment, c1Snap, c1St]
      norm_num

/-- Claim C1, amended: `processInvestment` acts solely on the snapshot
argument passed by the coordinator — its returned result object, the
balance it produces, the ledger it writes and the earnings it records
are all unchanged when the stored row's status is replaced by any other
status, so a freshly-mutated (e.g. COMPLETED) stored status is never
consulted and triggers no skip. -/
theorem processInvestment_snapshot_only (now : ℚ) (snap : Investment)
    (st : LedgerState) (s : InvStatus) :
    (processInvestment now snap (withStatus st s)).2 =
        (processInvestment now snap st).2 ∧
    (processInvestment now snap (withStatus st s)).1.balance_usd =
        (processInvestment now snap st).1.balance_usd ∧
    (processInvestment now snap (withStatus st s)).1.ledger =
        (processInvestment now snap st).1.ledger ∧
    (processInvestment now snap (withStatus st s)).1.row.total_earned =
        (processInvestment now snap st).1.row.total_earned := by
  by_cases h1 : now > snap.end_date
  · rw [processInvestment_ended now snap _ h1,
      processInvestment_ended now snap _ h1,
      completeInvestment_result, completeInvestment_result]
    rw [show (completeInvestment snap (withStatus st s)).1.balance_usd =
        (withStatus st s).balance_usd + _ from completeInvestment_balance _ _,
      completeInvestment_balance, completeInvestment_ledger,
      completeInvestment_ledger, completeInvestment_row,
      completeInvestment_row]
    simp [withStatus]
  · by_cases h2 : ⌊now - snap.start_date⌋ < 1
    · rw [processInvestment_tooRecent now snap _ h1 h2,
        processInvestment_tooRecent now snap _ h1 h2]
      simp [withStatus]
    · by_cases h3 : contractualToDate now snap - snap.total_earned ≤ 0
      · rw [processInvestment_noNew now snap _ h1 h2 h3,
          processInvestment_noNew now snap _ h1 h2 h3]
        simp [withStatus]
      · rw [processInvestment_credit now snap _ h1 h2 h3,
          processInvestment_credit now snap _ h1 h2 h3]
        simp [withStatus]

/-- Claim C2: on a row with `end_date = start_date + duration_days`,
non-negative principal and rate, and `total_earned` within the
contractual ceiling `principal * rate * duration_days / 100`, both
`processInvestment` (at any time) and `completeInvestment` leave
`total_earned` within the ceiling, including in the COMPLETED state. -/
theorem ceiling_invariant_preserved (now : ℚ) (st : LedgerState)
    (h_end : st.row.end_date = st.row.start_date + (st.row.duration_days : ℚ))
    (h_amt : 0 ≤ st.row.amount_usd) (h_pct : 0 ≤ st.row.daily_percent)
    (h_ceil : st.row.total_earned ≤ contractualTotal st.row) :
    (processInvestment now st.row st).1.row.total_earned ≤
        contractualTotal (processInvestment now st.row st).1.row ∧
    (completeInvestment st.row st).1.row.total_earned ≤
        contractualTotal (completeInvestment st.row st).1.row :=
  ⟨processInvestment_self_ceiling now st ⟨h_end, h_amt, h_pct⟩ h_ceil,
   completeInvestment_self_ceiling st⟩

/-- Claim C2, witness: the ceiling invariant theorem applied to a
concrete 30-day investment of 100 at 1.5%/day processed on day 5. -/
theorem ceiling_invariant_preserved_witness :
    (c2St.row.end_date = c2St.row.start_date + (c2St.row.duration_days : ℚ) ∧
     0 ≤ c2St.row.amount_usd ∧ 0 ≤ c2St.row.daily_percent ∧
     c2St.row.total_earned ≤ contractualTotal c2St.row) ∧
    ((processInvestment 5 c2St.row c2St).1.row.total_earned ≤
        contractualTotal (processInvestment 5 c2St.row c2St).1.row ∧
     (completeInvestment c2St.row c2St).1.row.total_earned ≤
        contractualTotal (completeInvestment c2St.row c2St).1.row) :=
  ⟨⟨by norm_num [c2St], by norm_num [c2St], by norm_num [c2St],
    by norm_num [c2St, contractualTotal]⟩,
   ceiling_invariant_preserved 5 c2St (by norm_num [c2St])
     (by norm_num [c2St]) (by norm_num [c2St])
     (by norm_num [c2St, contractualTotal])⟩

/-- Claim C3: on an active investment (not past its end, at least one
elapsed day) owing money, the first `processInvestment` sets
`total_earned` to the contractual-to-date amount, and an immediate
second application at the same time mutates nothing — same state back,
no ledger entry — returning the successful 'No new profit to
distribute' skip. -/
theorem processInvestment_idempotent (now : ℚ) (st : LedgerState)
    (h1 : ¬ now > st.row.end_date)
    (h2 : ¬ ⌊now - st.row.start_date⌋ < 1)
    (h3 : st.row.total_earned < contractualToDate now st.row) :
    (processInvestment now st.row st).1.row.total_earned =
        contractualToDate now st.row ∧
    processInvestment now (processInvestment now st.row st).1.row
        (processInvestment now st.row st).1 =
      ((processInvestment now st.row st).1,
       ⟨true, false, 0, false, ProcMessage.noNewProfit⟩) := by
  have h3' : ¬ contractualToDate now st.row - st.row.total_earned ≤ 0 := by
    linarith
  have hcred := processInvestment_credit now st.row st h1 h2 h3'
  constructor
  · rw [hcred]
    show st.row.total_earned +
        (contractualToDate now st.row - st.row.total_earned) =
      contractualToDate now st.row
    ring
  · rw [hcred]
    apply processInvestment_noNew
    · exact h1
    · exact h2
    · show contractualToDate now st.row -
          (st.row.total_earned +
            (contractualToDate now st.row - st.row.total_earned)) ≤ 0
      linarith

/-- Claim C3, witness: the idempotence theorem applied on day 5 of the
scenario-1 investment. -/
theorem processInvestment_idempotent_witness :
    ((¬ (5 : ℚ) > c3St.row.end_date) ∧
     (¬ ⌊(5 : ℚ) - c3St.row.start_date⌋ < 1) ∧
     c3St.row.total_earned < contractualToDate 5 c3St.row) ∧
    ((processInvestment 5 c3St.row c3St).1.row.total_earned =
        contractualToDate 5 c3St.row ∧
     processInvestment 5 (processInvestment 5 c3St.row c3St).1.row
        (processInvestment 5 c3St.row c3St).1 =
      ((processInvestment 5 c3St.row c3St).1,
       ⟨true, false, 0, false, ProcMessage.noNewProfit⟩)) :=
  ⟨⟨by norm_num [c3St], by norm_num [c3St],
    by norm_num [c3St, contractualToDate]⟩,
   processInvestment_idempotent 5 c3St (by norm_num [c3St])
     (by norm_num [c3St]) (by norm_num [c3St, contractualToDate])⟩

/-- Claim C4: starting from a consistent state (records sum to
`total_earned`, earnings within the ceiling, well-formed terms), after
any sequence of `processInvestment` and `completeInvestment`
applications the transaction records written for the investment still
sum to its `total_earned`. -/
theorem ledger_conservation (steps : List JobStep) (st : LedgerState)
    (h_end : st.row.end_date = st.row.start_date + (st.row.duration_days : ℚ))
    (h_amt : 0 ≤ st.row.amount_usd) (h_pct : 0 ≤ st.row.daily_percent)
    (h_ceil : st.row.total_earned ≤ contractualTotal st.row)
    (h_cons : ledgerSum st.ledger = st.row.total_earned) :
    ledgerSum (applySteps steps st).ledger =
      (applySteps steps st).row.total_earned :=
  ((applySteps_preserves steps st ⟨h_end, h_amt, h_pct⟩
      ⟨h_cons, h_ceil⟩).2).1

/-- Claim C4, witness: conservation through two accruals, a completion
and a post-completion run on a concrete fresh investment. -/
theorem ledger_conservation_witness :
    (c4St.row.end_date = c4St.row.start_date + (c4St.row.duration_days : ℚ) ∧
     0 ≤ c4St.row.amount_usd ∧ 0 ≤ c4St.row.daily_percent ∧
     c4St.row.total_earned ≤ contractualTotal c4St.row ∧
     ledgerSum c4St.ledger = c4St.row.total_earned) ∧
    ledgerSum (applySteps c4Steps c4St).ledger =
      (applySteps c4Steps c4St).row.total_earned :=
  ⟨⟨by norm_num [c4St], by norm_num [c4St], by norm_num [c4St],
    by norm_num [c4St, contractualTotal], by norm_num [c4St, ledgerSum]⟩,
   ledger_conservation c4Steps c4St (by norm_num [c4St])
     (by norm_num [c4St]) (by norm_num [c4St])
     (by norm_num [c4St, contractualTotal])
     (by norm_num [c4St, ledgerSum])⟩

end DailyProfitJob

namespace DailyProfitJob

/-- Claim C5, counterexample: at `asOf` exactly equal to the end date
(scenario-3 terms: earned 40, contractual total 45), processing does
NOT take the completion path — the dispatch is the strict comparison
`now > end_date` — so the investment is left ACTIVE and not marked
completed, contradicting the claim for `asOf ≥ end`. -/
theorem claim5_counterexample :
    (30 : ℚ) ≥ c5St.row.end_date ∧
    (processInvestment 30 c5St.row c5St).1.row.status = InvStatus.ACTIVE ∧
    (processInvestment 30 c5St.row c5St).2.completed = false := by
  refine ⟨by norm_num [c5St], ?_, ?_⟩ <;>
    · simp [processInvestment, completeInvestment, c5St]
      norm_num

/-- Claim C5, amended: for `asOf` strictly past the end date (and
earnings within the ceiling), processing takes the completion path:
the full contractual total is the ceiling, the shortfall between it
and `total_earned` is credited to the balance and reported as the
final owed amount, and the row is set to COMPLETED with `total_earned`
at the contractual total (40.00 earned against a 45.00 total yields a
5.00 credit). -/
theorem completion_strictly_after_end (now : ℚ) (st : LedgerState)
    (h_gt : now > st.row.end_date)
    (h_ceil : st.row.total_earned ≤ contractualTotal st.row) :
    (processInvestment now st.row st).1.balance_usd =
        st.balance_usd + (contractualTotal st.row - st.row.total_earned) ∧
    (processInvestment now st.row st).1.row.status = InvStatus.COMPLETED ∧
    (processInvestment now st.row st).1.row.total_earned =
        contractualTotal st.row ∧
    (processInvestment now st.row st).2.profitAmount =
        contractualTotal st.row - st.row.total_earned ∧
    (processInvestment now st.row st).2.completed = true := by
  have hmax : max 0 (contractualTotal st.row - st.row.total_earned) =
      contractualTotal st.row - st.row.total_earned :=
    max_eq_right (by linarith)
  rw [processInvestment_ended now st.row st h_gt]
  refine ⟨?_, ?_, ?_, ?_, ?_⟩
  · rw [completeInvestment_balance, hmax]
  · rw [completeInvestment_row]
  · rw [completeInvestment_row]
  · rw [completeInvestment_result, hmax]
  · rw [completeInvestment_result]

/-- Claim C5, witness: the amended completion theorem applied one day
past the end of the scenario-3 investment — earned 40, total 45,
credit 5, status COMPLETED. -/
theorem completion_strictly_after_end_witness :
    ((31 : ℚ) > c5St.row.end_date ∧
     c5St.row.total_earned ≤ contractualTotal c5St.row) ∧
    ((processInvestment 31 c5St.row c5St).1.balance_usd =
        c5St.balance_usd +
          (contractualTotal c5St.row - c5St.row.total_earned) ∧
     (processInvestment 31 c5St.row c5St).1.row.status =
        InvStatus.COMPLETED ∧
     (processInvestment 31 c5St.row c5St).1.row.total_earned =
        contractualTotal c5St.row ∧
     (processInvestment 31 c5St.row c5St).2.profitAmount =
        contractualTotal c5St.row - c5St.row.total_earned ∧
     (processInvestment 31 c5St.row c5St).2.completed = true) :=
  ⟨⟨by norm_num [c5St], by norm_num [c5St, contractualTotal]⟩,
   completion_strictly_after_end 31 c5St (by norm_num [c5St])
     (by norm_num [c5St, contractualTotal])⟩

/-- Claim C6, counterexample: a corrupted investment whose
`total_earned` (50) exceeds the contractual total (45) — so the owed
amount is negative — is processed by the completion path with a
successful result, the negative owed clamped to a zero credit by
`Math.max(0, ...)`, and `total_earned` silently overwritten down to the
contractual total: no per-investment failure is reported. -/
theorem claim6_counterexample :
    contractualTotal c6St.row < c6St.row.total_earned ∧
    (processInvestment 31 c6St.row c6St).2.success = true ∧
    (processInvestment 31 c6St.row c6St).2.profitAmount = 0 ∧
    (processInvestment 31 c6St.row c6St).1.row.total_earned =
      contractualTotal c6St.row := by
  refine ⟨by norm_num [c6St, contractualTotal], ?_, ?_, ?_⟩ <;>
    · simp [processInvestment, completeInvestment, c6St, contractualTotal]
      norm_num

/-- Claim C6, amended: when the owed amount is negative on the
completion path (`total_earned` above the contractual total), the code
clamps it to zero via `Math.max`, reports success with a zero credit,
leaves the balance untouched, writes no PROFIT record (only the
zero-amount completion record) and silently lowers `total_earned` to
the contractual total; the active-accrual path likewise reports a
successful 'no new profit' skip instead of a failure. -/
theorem negative_owed_clamped (now : ℚ) (st : LedgerState)
    (h_gt : now > st.row.end_date)
    (h_corrupt : contractualTotal st.row < st.row.total_earned) :
    (processInvestment now st.row st).2.success = true ∧
    (processInvestment now st.row st).2.profitAmount = 0 ∧
    (processInvestment now st.row st).1.balance_usd = st.balance_usd ∧
    (processInvestment now st.row st).1.row.total_earned =
        contractualTotal st.row ∧
    (processInvestment now st.row st).1.ledger =
        st.ledger ++ [⟨TxType.INVESTMENT, 0⟩] := by
  have hmax : max 0 (contractualTotal st.row - st.row.total_earned) =
      (0 : ℚ) := max_eq_left (by linarith)
  rw [processInvestment_ended now st.row st h_gt]
  refine ⟨?_, ?_, ?_, ?_, ?_⟩
  · rw [completeInvestment_result]
  · rw [completeInvestment_result, hmax]
  · rw [completeInvestment_balance, hmax]
    ring
  · rw [completeInvestment_row]
  · rw [completeInvestment_ledger, hmax]
    simp

/-- Claim C6, witness: the clamping theorem applied to the corrupted
investment with earned 50 against a contractual total of 45. -/
theorem negative_owed_clamped_witness :
    ((31 : ℚ) > c6St.row.end_date ∧
     contractualTotal c6St.row < c6St.row.total_earned) ∧
    ((processInvestment 31 c6St.row c6St).2.success = true ∧
     (processInvestment 31 c6St.row c6St).2.profitAmount = 0 ∧
     (processInvestment 31 c6St.row c6St).1.balance_usd =
        c6St.balance_usd ∧
     (processInvestment 31 c6St.row c6St).1.row.total_earned =
        contractualTotal c6St.row ∧
     (processInvestment 31 c6St.row c6St).1.ledger =
        c6St.ledger ++ [⟨TxType.INVESTMENT, 0⟩]) :=
  ⟨⟨by norm_num [c6St], by norm_num [c6St, contractualTotal]⟩,
   negative_owed_clamped 31 c6St (by norm_num [c6St])
     (by norm_num [c6St, contractualTotal])⟩

/-- Claim C7, counterexample: the re-entrancy fast-fail is reported
with `success = false` — exactly the flag a failed run (here: a failed
listing) also reports — so callers branching on `success` (as the
scheduler does) cannot tell the no-op apart from a failure: it is
reported through the same error shape. -/
theorem claim7_counterexample :
    (executeModel true (Except.ok [])).1.success = false ∧
    (executeModel false (Except.error 0)).1.success = false := by
  constructor <;> rfl

/-- Claim C7, amended: when a run is already in progress, `execute`
returns immediately — the same fixed object for every possible listing,
so no investment is read or mutated — carrying `success = false` with
the 'Job already running' message and neither an error nor a results
field, and leaves the in-progress flag (owned by the active run) set;
it is distinguishable from a failed run only by its message and its
missing fields, not by the `success` flag. -/
theorem execute_reentrant_noop
    (listing : Except ℕ (List (ℕ × InvOutcome))) :
    executeModel true listing =
      (⟨false, ExecMessage.jobAlreadyRunning, none, none⟩, true) := rfl

/-- Claim C8: a run that takes the flag always leaves `isRunning`
false afterwards (success or listing failure alike), and when the
listing of active investments fails the run aborts with the top-level
error and the still-initial summary — zero total and zero processed
investments. -/
theorem execute_releases_flag_and_aborts
    (listing : Except ℕ (List (ℕ × InvOutcome))) :
    (executeModel false listing).2 = false ∧
    initialResults.processedInvestments = 0 ∧
    (∀ e, listing = Except.error e →
      (executeModel false listing).1 =
        ⟨false, ExecMessage.calculationFailed, some e,
         some initialResults⟩) := by
  refine ⟨?_, rfl, ?_⟩
  · cases listing <;> rfl
  · intro e h
    subst h
    rfl

/-- Claim C8, witness: the flag-release theorem applied to a run whose
listing fails with error code 7. -/
theorem execute_releases_flag_and_aborts_witness :
    (executeModel false (Except.error 7)).2 = false ∧
    initialResults.processedInvestments = 0 ∧
    (executeModel false (Except.error 7)).1 =
      ⟨false, ExecMessage.calculationFailed, some 7, some initialResults⟩ :=
  ⟨(execute_releases_flag_and_aborts (Except.error 7)).1,
   (execute_releases_flag_and_aborts (Except.error 7)).2.1,
   (execute_releases_flag_and_aborts (Except.error 7)).2.2 7 rfl⟩

/-- Claim C9: the spec's scenario 1 — principal 100 at 1.5%/day for 30
days, processed 5 days after start with nothing earned and balance
0.00: the owed amount is exactly 7.50, `total_earned` becomes 7.50, the
balance becomes exactly 7.50, and the status stays ACTIVE. -/
theorem scenario1_accrual :
    (processInvestment 5 c9St.row c9St).2.profitAmount = (7.5 : ℚ) ∧
    (processInvestment 5 c9St.row c9St).1.row.total_earned = (7.5 : ℚ) ∧
    (processInvestment 5 c9St.row c9St).1.balance_usd = (7.5 : ℚ) ∧
    (processInvestment 5 c9St.row c9St).1.row.status = InvStatus.ACTIVE := by
  refine ⟨?_, ?_, ?_, ?_⟩ <;>
    · simp [processInvestment, completeInvestment, c9St]
      norm_num

/-- Claim C10: a run that successfully lists its investments returns
that summary, in which `totalInvestments` always equals
`processedInvestments + errors.length`, and `processedInvestments`
counts exactly the outcomes whose result reported success — including
the skip results that credited nothing — not the investments actually
credited. -/
theorem run_summary_accounting (outs : List (ℕ × InvOutcome)) :
    (executeModel false (Except.ok outs)).1.results =
        some (runResultsOf outs) ∧
    (runResultsOf outs).totalInvestments =
      (runResultsOf outs).processedInvestments +
        (runResultsOf outs).errors.length ∧
    (runResultsOf outs).processedInvestments =
      (outs.filter (fun item => isSuccessOutcome item.2)).length := by
  obtain ⟨ht, hpe, hp⟩ := foldl_recordOutcome_counts outs
    { initialResults with totalInvestments := outs.length }
  simp only [initialResults, List.length_nil] at ht hpe hp
  unfold runResultsOf
  simp only [initialResults]
  refine ⟨rfl, ?_, ?_⟩
  · omega
  · omega

end DailyProfitJob
